import Mathlib

/-!
Shallow embedding of src/storage/cassandra/db.js (storoid).

JavaScript objects are modelled as association lists in insertion order
(JS string-keyed objects iterate in insertion order; the attribute and
index names used by this module are non-numeric keys). JavaScript values
are modelled by the inductive JVal below. Machine integers do not occur;
the only numbers the claims exercise are small integers, modelled as Int.
Fallible code returns Except String.
-/

namespace Storoid

/-- A JavaScript value as used by db.js: undefined, booleans, numbers,
strings, v1 time-based UUID strings produced by tidFromDate (kept as a
separate constructor carrying the milliseconds that determine them),
arrays, and plain objects (insertion-ordered field lists). -/
inductive JVal where
  | undef : JVal
  | bool : Bool → JVal
  | num : Int → JVal
  | str : String → JVal
  | tid : Nat → JVal
  | arr : List JVal → JVal
  | obj : List (String × JVal) → JVal

/-- Lookup in a JS-object field list; the first binding wins (JS objects
cannot hold duplicate keys, so well-formed lists have at most one). -/
def lookupField {α : Type} : List (String × α) → String → Option α
  | [], _ => none
  | (k, v) :: rest, key => if k = key then some v else lookupField rest key

/-- JS property assignment on an object: an existing key keeps its
position and gets the new value, a new key is appended. -/
def setField {α : Type} : List (String × α) → String → α → List (String × α)
  | [], key, v => [(key, v)]
  | (k, w) :: rest, key, v =>
      if k = key then (k, v) :: rest else (k, w) :: setField rest key v

/-- Reading a property that is absent yields undefined. -/
def objGet (fields : List (String × JVal)) (key : String) : JVal :=
  (lookupField fields key).getD JVal.undef

/-- JS truthiness for the values of this model (undefined, false, 0 and
the empty string are falsy; arrays and objects are always truthy). -/
def truthy : JVal → Bool
  | JVal.undef => false
  | JVal.bool b => b
  | JVal.num n => n != 0
  | JVal.str s => s != ""
  | JVal.tid _ => true
  | JVal.arr _ => true
  | JVal.obj _ => true

/-- Is this value the JS undefined? (val !== undefined in db.js 294). -/
def isUndef : JVal → Bool
  | JVal.undef => true
  | _ => false

/-- predObj.constructor === String: tidFromDate returns a (uuid) string,
so both str and tid are JS strings. -/
def isJsString : JVal → Bool
  | JVal.str _ => true
  | JVal.tid _ => true
  | _ => false

/-- The string a value turns into when used as a JS object key. The code
only ever indexes with attribute-name strings; the other cases follow the
JS ToString conventions closely enough for totality. -/
def jsKeyStr : JVal → String
  | JVal.str s => s
  | JVal.tid m => "tid-" ++ toString m
  | JVal.num n => toString n
  | JVal.bool b => if b then "true" else "false"
  | JVal.undef => "undefined"
  | JVal.arr _ => ""
  | JVal.obj _ => "[object Object]"

/-- JS strict equality (===) as used by Array.prototype.indexOf in this
module. The code only compares primitive values (attribute-name strings);
on arrays and objects === is reference equality, which a value model
cannot express, so those compare unequal here. A tid never compares equal
to a plain string (a v1 uuid text is never one of the attribute names the
code compares against). -/
def jvalStrictEq : JVal → JVal → Bool
  | JVal.str a, JVal.str b => a == b
  | JVal.tid a, JVal.tid b => a == b
  | JVal.num a, JVal.num b => a == b
  | JVal.bool a, JVal.bool b => a == b
  | JVal.undef, JVal.undef => true
  | _, _ => false

/-- range.indexOf(x) !== -1, with indexOf comparing by ===. -/
def jsContains (xs : List JVal) (x : JVal) : Bool :=
  xs.any (fun y => jvalStrictEq y x)

/-- The for-in keys of a JS value: own enumerable property names for an
object, nothing for undefined or the other primitives this code passes. -/
def jsFields : JVal → List (String × JVal)
  | JVal.obj fs => fs
  | _ => []

/-- JS property write under the strict mode declared at the top of
db.js: on an object it updates the field list; on a primitive base the
write cannot create the property and throws a TypeError. -/
def jsSetProp (target : JVal) (key : String) (v : JVal) : Except String JVal :=
  match target with
  | JVal.obj fs => Except.ok (JVal.obj (setField fs key v))
  | _ => Except.error ("TypeError: cannot create property " ++ key ++ " on a primitive")

/-- Reading a property off an arbitrary JS value. -/
def jsGetProp : JVal → String → JVal
  | JVal.obj fs, k => objGet fs k
  | _, _ => JVal.undef

/-- arr[i] / str[i]; anything else indexes to undefined. -/
def jsIndex : JVal → Nat → JVal
  | JVal.arr xs, i => xs.getD i JVal.undef
  | JVal.str s, i =>
      match s.toList.get? i with
      | some c => JVal.str (String.singleton c)
      | none => JVal.undef
  | _, _ => JVal.undef

/-- ASCII lowercase of a JS toLowerCase call (the strings the code
lowercases are operator names and the if clause, all ASCII). Defined on
the character list so it reduces definitionally. -/
def strLower (s : String) : String :=
  String.mk (s.toList.map (fun c =>
    if 'A' ≤ c && c ≤ 'Z' then Char.ofNat (c.toNat + 32) else c))

/-- The character class of the regex in cassID: [a-zA-Z0-9_]. -/
def isCassIdChar (c : Char) : Bool :=
  (('a' ≤ c && c ≤ 'z') || ('A' ≤ c && c ≤ 'Z') || ('0' ≤ c && c ≤ '9') || c = '_')

/-- name.replace double-quote with two double-quotes, on character lists. -/
def escQuotes : List Char → List Char
  | [] => []
  | c :: rest => if c = '"' then '"' :: '"' :: escQuotes rest else c :: escQuotes rest

/-- cassID (db.js lines 9-15): quote a name for CQL; names that match
the safe character class are quoted directly, anything else has its
double quotes doubled first. -/
def cassID (name : String) : String :=
  if name.toList ≠ [] && name.toList.all isCassIdChar then
    "\"" ++ name ++ "\""
  else
    "\"" ++ String.mk (escQuotes name.toList) ++ "\""

/-- tidFromDate (db.js lines 17-25): uuid.v1 with a fixed node and
clock sequence, msecs from the date, nsecs 0. The uuid text itself is
produced by the external node-uuid library (out of this repository); for
a fixed node and clock sequence it is determined solely by the
milliseconds, which is what this model records. -/
def tidFromDate (dateMs : Nat) : JVal := JVal.tid dateMs

/-- The operator switch of buildCondition (db.js lines 43-56) for a
one-key predicate object: operator names are compared lowercased, an
unknown operator throws, and between expects a two-element array. -/
def opFragment (predKey : String) (predOp : String) (predArg : JVal) :
    Except String (String × List JVal) :=
  if strLower predOp == "eq" then Except.ok (cassID predKey ++ " = ?", [predArg])
  else if strLower predOp == "lt" then Except.ok (cassID predKey ++ " < ?", [predArg])
  else if strLower predOp == "gt" then Except.ok (cassID predKey ++ " > ?", [predArg])
  else if strLower predOp == "le" then Except.ok (cassID predKey ++ " <= ?", [predArg])
  else if strLower predOp == "ge" then Except.ok (cassID predKey ++ " >= ?", [predArg])
  else if strLower predOp == "ne" then Except.ok (cassID predKey ++ " != ?", [predArg])
  else if strLower predOp == "between" then
    Except.ok (cassID predKey ++ " >= ?" ++ " AND " ++ cassID predKey ++ " <= ?",
      [jsIndex predArg 0, jsIndex predArg 1])
  else Except.error ("Operator " ++ predOp ++ " not supported!")

/-- One iteration of the buildCondition loop (db.js lines 30-62) for the
attribute predKey with predicate value predObj: the produced query
fragment and the parameters pushed. A string value means equality; a
one-key object selects an operator; any other primitive neither extends
the fragment past the column name nor pushes a parameter (numbers and
booleans are neither String nor Object); an undefined value makes the
constructor access throw. -/
def condFragment (predKey : String) (predObj : JVal) :
    Except String (String × List JVal) :=
  match predObj with
  | JVal.undef => Except.error "TypeError: cannot read constructor of undefined"
  | JVal.str s => Except.ok (cassID predKey ++ " = ?", [JVal.str s])
  | JVal.tid t => Except.ok (cassID predKey ++ " = ?", [JVal.tid t])
  | JVal.obj [(predOp, predArg)] => opFragment predKey predOp predArg
  | JVal.obj _ => Except.error "Invalid predicate"
  | _ => Except.ok (cassID predKey, [])

/-- Array.prototype.join applied to the conjunction fragments with the
separator AND (db.js line 65). -/
def joinAnd : List String → String
  | [] => ""
  | [s] => s
  | s :: rest => s ++ " AND " ++ joinAnd rest

/-- The loop of buildCondition: conjunction fragments and parameters in
iteration order, stopping at the first throwing entry. -/
def buildConditionAux : List (String × JVal) → Except String (List String × List JVal)
  | [] => Except.ok ([], [])
  | (k, v) :: rest =>
    match condFragment k v with
    | Except.error e => Except.error e
    | Except.ok fr =>
      match buildConditionAux rest with
      | Except.error e => Except.error e
      | Except.ok tail => Except.ok (fr.1 :: tail.1, fr.2 ++ tail.2)

/-- buildCondition (db.js lines 27-68): compile a predicate object into
a WHERE fragment (conjunctions joined with AND) and its bound params. -/
def buildCondition (pred : List (String × JVal)) :
    Except String (String × List JVal) :=
  match buildConditionAux pred with
  | Except.error e => Except.error e
  | Except.ok acc => Except.ok (joinAnd acc.1, acc.2)

/-- An index descriptor as it appears in a schema document: the primary
index or a secondary-index entry. Fields the document does not set are
undefined, exactly as a property read on the parsed JSON would give. -/
structure IndexDef where
  hash : JVal
  range : JVal
  order : JVal
  static : JVal
  proj : JVal

/-- A schema document (the JSON persisted under key "schema" in meta):
attribute types, the primary index, and optional secondary indexes. A
document with no secondaryIndexes property is modelled with none; the
other top-level properties of the request (table, options, consistency)
feed only the driver and keyspace DDL and play no part in the claims. -/
structure SchemaReq where
  attributes : List (String × JVal)
  index : IndexDef
  secondaryIndexes : Option (List (String × IndexDef))

/-- cass.types.consistencies.one, an opaque driver enumeration value. -/
def defaultConsistency : Nat := 1

/-- The companion schema generateIndexSchema returns (db.js 226-232). -/
structure IndexSchema where
  name : String
  attributes : List (String × JVal)
  index : IndexDef
  consistency : Nat
  _indexAttributes : List (String × JVal)

/-- Normalization of a range property (db.js 152-159 and 131-135): a
falsy range is no range, a non-array becomes a one-element array, an
array is taken as is (an empty array is truthy and stays empty). -/
def normalizeRange (r : JVal) : List JVal :=
  match r with
  | JVal.arr xs => xs
  | v => if truthy v then [v] else []

/-- validateSchema (db.js 124-138): require a hash key and return the
primary range normalized to an array. A schema document whose index
property is missing altogether is not representable here; every request
the claims quantify over carries an index object, and the hash check is
the one the code performs on it. -/
def validateSchema (req : SchemaReq) : Except String (List JVal) :=
  if truthy req.index.hash then
    Except.ok (normalizeRange req.index.range)
  else
    Except.error "Missing index or hash key in table schema"

/-- The pure body of generateIndexSchema (db.js 150-232) once the
descriptor has been fetched and validateSchema has passed: returns the
schema request with the descriptor mutated in place (static overwritten
with __consistentUpTo, range replaced by the closed clustering list)
together with the synthesized companion schema. -/
def generateIndexSchemaCore (req : SchemaReq) (indexName : String)
    (index : IndexDef) (rangeIndex : List JVal) : SchemaReq × IndexSchema :=
  let range0 := normalizeRange index.range
  let attrs0 : List (String × JVal) :=
    [("__consistentUpTo", JVal.str "timeuuid"), ("__tombstone", JVal.str "boolean")]
  let hashKey := jsKeyStr index.hash
  let attrs1 := setField attrs0 hashKey (objGet req.attributes hashKey)
  let ia1 := range0.foldl (fun ia item => setField ia (jsKeyStr item) (JVal.bool true))
      (setField [] hashKey (JVal.bool true))
  let primHash := req.index.hash
  let range1 :=
    if !truthy (objGet attrs1 (jsKeyStr primHash)) && !jsContains range0 primHash then
      range0 ++ [primHash]
    else range0
  let closure := rangeIndex.foldl
    (fun (st : List JVal × List (String × JVal)) att =>
      if !truthy (objGet attrs1 (jsKeyStr att)) && !jsContains st.1 att then
        (st.1 ++ [att], setField st.2 (jsKeyStr att) (JVal.bool true))
      else st)
    (range1, ia1)
  let range2 := closure.1
  let ia2 := closure.2
  let typed := range2.foldl
    (fun (st : List (String × JVal) × Bool) att =>
      let k := jsKeyStr att
      let attrs := if !truthy (objGet st.1 k)
        then setField st.1 k (objGet req.attributes k) else st.1
      (attrs, st.2 || jvalStrictEq (objGet attrs k) (JVal.str "timeuuid")))
    (attrs1, false)
  let hasTid := typed.2
  let attrs3 := if hasTid then typed.1 else setField typed.1 "_tid" (JVal.str "timeuuid")
  let range3 := if hasTid then range2 else range2 ++ [JVal.str "_tid"]
  let ia3 := if hasTid then ia2 else setField ia2 "_tid" (JVal.str "timeuuid")
  let attrs4 :=
    match index.proj with
    | JVal.arr projs =>
        projs.foldl (fun attrs p =>
          let k := jsKeyStr p
          if !truthy (objGet attrs k)
          then setField attrs k (objGet req.attributes k) else attrs) attrs3
    | _ => attrs3
  let indexFinal : IndexDef :=
    { hash := index.hash, range := JVal.arr range3, order := index.order,
      static := JVal.str "__consistentUpTo", proj := index.proj }
  let reqFinal : SchemaReq :=
    { attributes := req.attributes, index := req.index,
      secondaryIndexes :=
        some (setField (req.secondaryIndexes.getD []) indexName indexFinal) }
  let idxSchema : IndexSchema :=
    { name := indexName, attributes := attrs4, index := indexFinal,
      consistency := defaultConsistency, _indexAttributes := ia3 }
  (reqFinal, idxSchema)

/-- generateIndexSchema (db.js 140-235): look up the descriptor, check
its hash, validate the parent schema, and synthesize the companion.
The returned SchemaReq carries the in-place mutation of the descriptor
(db.js 166 and 225) that the JS version performs on its argument. -/
def generateIndexSchema (req : SchemaReq) (indexName : String) :
    Except String (SchemaReq × IndexSchema) :=
  match lookupField (req.secondaryIndexes.getD []) indexName with
  | none => Except.error "TypeError: cannot read hash of undefined"
  | some index =>
    if truthy index.hash then
      match validateSchema req with
      | Except.error e => Except.error e
      | Except.ok rangeIndex =>
          Except.ok (generateIndexSchemaCore req indexName index rangeIndex)
    else
      Except.error "Index not defined properly"

/-- The enriched schema _getSchema caches: the (mutated) document plus
the _restbase bookkeeping the function attaches to it. -/
structure EnrichedSchema where
  schema : SchemaReq
  indexSchema : List (String × IndexSchema)
  _indexAttributes : List (String × JVal)

/-- The enrichment half of _getSchema (db.js 384-409): parse the stored
document, synthesize every companion (threading the mutations through the
document), then record the primary key columns. -/
def enrichFold : SchemaReq → List (String × IndexSchema) → List String →
    Except String (SchemaReq × List (String × IndexSchema))
  | d, acc, [] => Except.ok (d, acc)
  | d, acc, name :: rest =>
    match generateIndexSchema d name with
    | Except.error e => Except.error e
    | Except.ok gen => enrichFold gen.1 (setField acc name gen.2) rest

/-- The primary-key set recorded by _getSchema (db.js 399-408). -/
def primaryIndexAttributes (doc : SchemaReq) : List (String × JVal) :=
  let ia0 := setField [] (jsKeyStr doc.index.hash) (JVal.bool true)
  match doc.index.range with
  | JVal.arr xs => xs.foldl (fun ia x => setField ia (jsKeyStr x) (JVal.bool true)) ia0
  | v => if truthy v then setField ia0 (jsKeyStr v) (JVal.bool true) else ia0

/-- The enrichment half of _getSchema continued: thread the companion
synthesis over the index names, then compute the primary key columns
from the (untouched) primary index of the threaded document. -/
def enrichSchema (doc : SchemaReq) : Except String EnrichedSchema :=
  match enrichFold doc [] ((doc.secondaryIndexes.getD []).map Prod.fst) with
  | Except.error e => Except.error e
  | Except.ok folded =>
    Except.ok
      { schema := folded.1, indexSchema := folded.2,
        _indexAttributes := primaryIndexAttributes folded.1 }

/-- An index property that is absent from a document. -/
def noIndexProp : JVal := JVal.undef

/-- A get/read request (db.js _get, lines 440-516). Fields the caller
does not set are undefined; attributes, when present, is the predicate
object handed to buildCondition. -/
structure GetReq where
  proj : JVal
  order : JVal
  index : JVal
  distinct : JVal
  attributes : JVal
  limit : JVal

/-- The empty request object passed by _getSchema to _get. -/
def emptyGetReq : GetReq :=
  { proj := JVal.undef, order := JVal.undef, index := JVal.undef,
    distinct := JVal.undef, attributes := JVal.undef, limit := JVal.undef }

/-- The statement-building part of _get (db.js 440-500): projection,
target family, predicate, ordering and limit. The cached schema argument
is this.schemaCache[keyspace] (an enriched schema or nothing). -/
def _getQuery (keyspace : String) (req : GetReq) (tableArg : Option String)
    (cachedSchema : Option EnrichedSchema) : Except String (String × List JVal) :=
  let table0 := tableArg.getD "data"
  let proj0 : String :=
    if truthy req.proj then
      match req.proj with
      | JVal.arr xs => String.intercalate "," (xs.map (fun x => cassID (jsKeyStr x)))
      | JVal.str s => cassID s
      | _ => "*"
    else if truthy req.order then
      match cachedSchema with
      | some cs => String.intercalate "," (cs.schema.attributes.map (fun kv => cassID kv.1))
      | none => "*"
    else "*"
  let table1 := if truthy req.index then "i_" ++ jsKeyStr req.index else table0
  let proj1 := if truthy req.distinct then "distinct " ++ proj0 else proj0
  let base := "select " ++ proj1 ++ " from " ++ cassID keyspace ++ "." ++ cassID table1
  match
    (if truthy req.attributes then
      (match buildCondition (jsFields req.attributes) with
       | Except.error e => Except.error e
       | Except.ok condResult =>
           Except.ok (base ++ " where " ++ condResult.1, condResult.2))
     else Except.ok (base, ([] : List JVal))) with
  | Except.error e => Except.error e
  | Except.ok conditioned =>
  let ordered :=
    if truthy req.order then
      let rangeColumn : JVal :=
        match cachedSchema with
        | some schema =>
          (match schema.schema.index.range with
           | JVal.arr xs => xs.getD 0 JVal.undef
           | v => v)
        | none => JVal.str "_tid"
      let dir := strLower (jsKeyStr req.order)
      if truthy rangeColumn && (dir == "asc" || dir == "desc") then
        conditioned.1 ++ " order by " ++ cassID (jsKeyStr rangeColumn) ++ " " ++ dir
      else conditioned.1
    else conditioned.1
  let limited :=
    match req.limit with
    | JVal.num n => if n != 0 then ordered ++ " limit " ++ toString n else ordered
    | _ => ordered
  Except.ok (limited, conditioned.2)

/-- JSON.stringify as buildPutQuery applies it to object-valued
attributes (db.js 295-297); a JS builtin, rendered here in the standard
JSON surface syntax (string escaping is not needed by any input the
claims exercise). -/
def jsonStringify : JVal → String
  | JVal.undef => "null"
  | JVal.bool b => if b then "true" else "false"
  | JVal.num n => toString n
  | JVal.str s => "\"" ++ s ++ "\""
  | JVal.tid m => "\"" ++ jsKeyStr (JVal.tid m) ++ "\""
  | JVal.arr xs => "[" ++ String.intercalate ","
      (xs.attach.map (fun x => jsonStringify x.1)) ++ "]"
  | JVal.obj fs => "\x7b" ++ String.intercalate ","
      (fs.attach.map (fun kv => "\"" ++ kv.1.1 ++ "\":" ++ jsonStringify kv.1.2)) ++ "\x7d"
decreasing_by
  · have h := List.sizeOf_lt_of_mem x.2
    simp only [JVal.arr.sizeOf_spec]
    omega
  · have h := List.sizeOf_lt_of_mem kv.2
    obtain ⟨⟨k, v⟩, hm⟩ := kv
    simp only [Prod.mk.sizeOf_spec] at h
    simp only [JVal.obj.sizeOf_spec]
    omega

/-- The body of the columns loop of _get, iterating the for-in keys of
the rows array (the index strings): each iteration performs the strict
property write row.columns = undefined on the index string, which throws
a TypeError, so the loop completes only when there are no keys at all. -/
def hideColumnsGo (rows : List JVal) : List Nat → Except String (List JVal)
  | [] => Except.ok rows
  | i :: rest =>
    match jsSetProp (JVal.str (toString i)) "columns" JVal.undef with
    | Except.error e => Except.error e
    | Except.ok _ => hideColumnsGo rows rest

/-- The response-shaping loop of _get (db.js 508-510): for (var row in
rows) binds row to the index strings of the array, so under the strict
mode declared at the top of db.js the write throws on the first index of
any non-empty rows array; an empty rows array passes through unchanged,
and the columns attribute is never removed from any row. -/
def hideColumnsLoop (rows : List JVal) : Except String (List JVal) :=
  hideColumnsGo rows (List.range rows.length)

/-- The then-callback of _get (db.js 504-515): run the columns loop and
resolve with count and items; a throw in the loop rejects the read. -/
def _getShape (rows : List JVal) : Except String JVal :=
  match hideColumnsLoop rows with
  | Except.error e => Except.error e
  | Except.ok rows2 =>
    Except.ok (JVal.obj [("count", JVal.num (Int.ofNat rows2.length)),
      ("items", JVal.arr rows2)])

/-- The request object _getSchema builds in its local variable query
(db.js 376-380) and then never passes on. -/
def _getSchemaIntendedReq : GetReq :=
  { proj := JVal.undef, order := JVal.undef, index := JVal.undef,
    distinct := JVal.undef, attributes := JVal.obj [("key", JVal.str "schema")],
    limit := JVal.undef }

/-- The read _getSchema actually issues (db.js 381): _get with the empty
request object and table meta. -/
def _getSchemaRead (keyspace : String) (cachedSchema : Option EnrichedSchema) :
    Except String (String × List JVal) :=
  _getQuery keyspace emptyGetReq (some "meta") cachedSchema

/-- The result of the meta read as _getSchema consumes it: either no
rows, or the schema row, given here by the document its value column
holds (JSON.parse of the JSON.stringify that persisted it, an identity
on these documents). -/
inductive MetaReadResult where
  | empty : MetaReadResult
  | row : SchemaReq → MetaReadResult

/-- JSON.stringify drops properties whose value is undefined. -/
def jsonFields (fs : List (String × JVal)) : List (String × JVal) :=
  fs.filter (fun kv => !isUndef kv.2)

/-- The JSON value of an index descriptor, absent properties dropped. -/
def indexDefToJson (d : IndexDef) : JVal :=
  JVal.obj (jsonFields [("hash", d.hash), ("range", d.range),
    ("order", d.order), ("static", d.static), ("proj", d.proj)])

/-- The JSON value of a schema document, as stringify/parse see it. -/
def schemaReqToJson (sr : SchemaReq) : JVal :=
  JVal.obj (jsonFields
    [("attributes", JVal.obj sr.attributes),
     ("index", indexDefToJson sr.index),
     ("secondaryIndexes",
       match sr.secondaryIndexes with
       | none => JVal.undef
       | some l => JVal.obj (l.map (fun kv => (kv.1, indexDefToJson kv.2))))])

/-- The meta row holding a schema document: the key column and the JSON
text of the document in the value column. -/
def metaSchemaRow (doc : SchemaReq) : JVal :=
  JVal.obj [("key", JVal.str "schema"),
    ("value", JVal.str (jsonStringify (schemaReqToJson doc)))]

/-- The continuation of _getSchema (db.js 381-413) on the outcome of the
meta read. The response shaping of _get runs first on the driver rows;
under the strict mode declared at the top of db.js its columns loop
throws on any non-empty rows, so the read rejects whenever the schema
row exists, and the JSON.parse / enrichment continuation (db.js 383-409)
is reachable only for an empty read, which resolves null. -/
def _getSchemaResult : MetaReadResult → Except String (Option EnrichedSchema)
  | MetaReadResult.empty =>
    match hideColumnsLoop [] with
    | Except.error e => Except.error e
    | Except.ok _ => Except.ok none
  | MetaReadResult.row doc =>
    match hideColumnsLoop [metaSchemaRow doc] with
    | Except.error e => Except.error e
    | Except.ok _ => (enrichSchema doc).map some

/-- A put request (db.js _put / buildPutQuery): the supplied attributes
and the optional if property (spelled ifCond because if is reserved). -/
structure PutReq where
  attributes : List (String × JVal)
  ifCond : JVal

/-- The slice of a schema object buildPutQuery reads: its attribute
types, the primary-key set attached at schema._restbase._indexAttributes
(present on the meta infoSchema and on enriched data schemas), and the
companion-level _indexAttributes (present on index companion schemas). -/
structure PutSchema where
  attributes : List (String × JVal)
  restbaseIndexAttributes : List (String × JVal)
  _indexAttributes : List (String × JVal)

/-- DB.prototype.infoSchema (db.js 246-256) as buildPutQuery sees it. -/
def infoSchemaPut : PutSchema :=
  { attributes := [("key", JVal.str "string"), ("value", JVal.str "json")],
    restbaseIndexAttributes := [("key", JVal.bool true)],
    _indexAttributes := [] }

/-- An enriched data schema as buildPutQuery sees it. -/
def dataPutSchema (e : EnrichedSchema) : PutSchema :=
  { attributes := e.schema.attributes,
    restbaseIndexAttributes := e._indexAttributes,
    _indexAttributes := [] }

/-- A companion index schema as buildPutQuery sees it. -/
def companionPutSchema (i : IndexSchema) : PutSchema :=
  { attributes := i.attributes,
    restbaseIndexAttributes := [],
    _indexAttributes := i._indexAttributes }

/-- Which _indexAttributes buildPutQuery uses (db.js 269-276): the
_restbase one for the meta and data families, the companion one for a
secondary-index table. -/
def putIndexAttrsFor (table : String) (schema : PutSchema) : List (String × JVal) :=
  if table == "meta" || table == "data" then schema.restbaseIndexAttributes
  else schema._indexAttributes

/-- The physical table buildPutQuery targets: secondary-index writes are
redirected to the i_ companion family (db.js 275). -/
def putTableFor (table : String) : String :=
  if table == "meta" || table == "data" then table else "i_" ++ table

/-- The first loop of buildPutQuery (db.js 282-290): bind every index
attribute. A key named _tid is always synthesized from the current time;
any other key missing from the request throws. -/
def putIndexKVMapGo (req : PutReq) (nowMs : Nat) :
    List (String × JVal) → List (String × JVal) →
    Except String (List (String × JVal))
  | m, [] => Except.ok m
  | m, kv :: rest =>
      if kv.1 == "_tid" then
        putIndexKVMapGo req nowMs (setField m kv.1 (tidFromDate nowMs)) rest
      else if !truthy (objGet req.attributes kv.1) then
        Except.error ("Index attribute " ++ kv.1 ++ " missing")
      else
        putIndexKVMapGo req nowMs (setField m kv.1 (objGet req.attributes kv.1)) rest

/-- The accumulated indexKVMap for the listed index attributes. -/
def putIndexKVMap (req : PutReq) (ia : List (String × JVal)) (nowMs : Nat) :
    Except String (List (String × JVal)) :=
  putIndexKVMapGo req nowMs [] ia

/-- The second loop of buildPutQuery (db.js 292-304): split the defined,
schema-known attributes into non-key names and values (object values are
JSON-encoded) and collect one placeholder per such attribute. -/
def putValueSplit (req : PutReq) (schema : PutSchema) (ia : List (String × JVal)) :
    List String × List JVal × List String :=
  req.attributes.foldl
    (fun (st : List String × List JVal × List String) kv =>
      if !isUndef kv.2 && truthy (objGet schema.attributes kv.1) then
        let v := match kv.2 with
          | JVal.obj fs => JVal.str (jsonStringify (JVal.obj fs))
          | other => other
        if !truthy (objGet ia kv.1) then
          (st.1 ++ [kv.1], st.2.1 ++ [v], st.2.2 ++ ["?"])
        else
          (st.1, st.2.1, st.2.2 ++ ["?"])
      else st)
    ([], [], [])

/-- The maximal non-whitespace runs of a character list, in order; the
whitespace-collapsing core of trim + split on whitespace runs + join. -/
def wsWords : List Char → List Char → List (List Char)
  | [], cur => if cur.isEmpty then [] else [cur.reverse]
  | c :: rest, cur =>
      if c.isWhitespace then
        if cur.isEmpty then wsWords rest [] else cur.reverse :: wsWords rest []
      else wsWords rest (c :: cur)

/-- The normalization buildPutQuery applies to a string if property
(db.js 315-317): trim, collapse whitespace runs to single spaces,
lowercase (trim then split on whitespace runs then join with a space is
exactly the whitespace-run decomposition). Non-strings pass through. -/
def normalizeIf : JVal → JVal
  | JVal.str s => JVal.str (strLower
      (String.intercalate " " ((wsWords s.toList []).map String.mk)))
  | v => v

/-- req.if === "not exists" (after normalization). -/
def isNotExists : JVal → Bool
  | JVal.str s => s == "not exists"
  | _ => false

/-- The insert-or-update branch of buildPutQuery (db.js 313-335): an
insert when no non-key attributes were collected or the normalized if
clause is not exists (keys first in the projection, key params first),
an update otherwise (non-key params first, keys bound in the WHERE). -/
def putMainStatement (keyspace tbl : String) (ia : List (String × JVal))
    (keys : List String) (params0 : List JVal) (placeholders : List String)
    (reqIf : JVal) (condRes : String × List JVal) :
    Except String (String × List JVal) :=
  if keys.isEmpty || isNotExists reqIf then
    Except.ok ("insert into " ++ cassID keyspace ++ "." ++ cassID tbl
      ++ " (" ++ String.intercalate "," ((ia.map Prod.fst ++ keys).map cassID)
      ++ ") values (" ++ String.intercalate "," placeholders ++ ")",
      condRes.2 ++ params0)
  else if !keys.isEmpty then
    Except.ok ("update " ++ cassID keyspace ++ "." ++ cassID tbl
      ++ " set " ++ (String.intercalate " = ?," (keys.map cassID) ++ " = ? ")
      ++ " where " ++ condRes.1,
      params0 ++ condRes.2)
  else Except.error "Cannot update or insert"

/-- The if-clause handling of buildPutQuery (db.js 338-347): not exists
appends the literal suffix, any other truthy if compiles a compare-and-
set condition and appends its parameters. -/
def putIfSuffix (reqIf : JVal) (main : String × List JVal) :
    Except String (String × List JVal) :=
  if truthy reqIf then
    if isNotExists reqIf then
      Except.ok (main.1 ++ " if not exists ", main.2)
    else
      match buildCondition (jsFields reqIf) with
      | Except.error e => Except.error e
      | Except.ok condResult =>
          Except.ok (main.1 ++ " if " ++ condResult.1, main.2 ++ condResult.2)
  else Except.ok main

/-- buildPutQuery (db.js 259-350): compose the insert-or-update CQL and
its parameter list for one target table. nowMs is the wall clock read by
new Date() when a _tid must be synthesized. The index map and its
condition are built before the branch, as in the source. -/
def buildPutQuery (req : PutReq) (keyspace table : String) (schema : PutSchema)
    (nowMs : Nat) : Except String (String × List JVal) :=
  match putIndexKVMap req (putIndexAttrsFor table schema) nowMs with
  | Except.error e => Except.error e
  | Except.ok indexKVMap =>
    match buildCondition indexKVMap with
    | Except.error e => Except.error e
    | Except.ok condRes =>
      match putMainStatement keyspace (putTableFor table)
          (putIndexAttrsFor table schema)
          (putValueSplit req schema (putIndexAttrsFor table schema)).1
          (putValueSplit req schema (putIndexAttrsFor table schema)).2.1
          (putValueSplit req schema (putIndexAttrsFor table schema)).2.2
          (normalizeIf req.ifCond) condRes with
      | Except.error e => Except.error e
      | Except.ok main => putIfSuffix (normalizeIf req.ifCond) main

/-- How executeCql hands statements to the driver (db.js 352-360): a
single statement goes through execute_p, anything else through batch_p,
both prepared at the requested consistency. -/
inductive Dispatch where
  | execute : String → List JVal → Nat → Bool → Dispatch
  | batch : List (String × List JVal) → Nat → Bool → Dispatch

/-- executeCql: choose the driver call for a batch. -/
def executeCql (stmts : List (String × List JVal)) (consistency : Nat) : Dispatch :=
  match stmts with
  | [b] => Dispatch.execute b.1 b.2 consistency true
  | bs => Dispatch.batch bs consistency true

/-- The companion loop of _put (db.js 563-572): look up each cached
companion schema and append its statement to the batch. -/
def putCompanions (keyspace : String) (req : PutReq) (e : EnrichedSchema)
    (nowMs : Nat) : List (String × List JVal) → List String →
    Except String (List (String × List JVal))
  | batch, [] => Except.ok batch
  | batch, item :: rest =>
    match lookupField e.indexSchema item with
    | none => Except.error "Table not found!"
    | some idxSchema =>
      match buildPutQuery req keyspace item (companionPutSchema idxSchema) nowMs with
      | Except.error err => Except.error err
      | Except.ok q2 => putCompanions keyspace req e nowMs (batch ++ [q2]) rest

/-- The statement-composition part of _put (db.js 542-572): the primary
statement, then one companion statement per secondary index, each built
from the companion schema cached for it. nowMs models the wall clock for
the whole put. -/
def _put (keyspace : String) (req : PutReq) (tableArg : Option String)
    (schemaCacheEntry : Option EnrichedSchema) (nowMs : Nat) :
    Except String (List (String × List JVal)) :=
  let table := tableArg.getD "data"
  if table == "meta" then
    match buildPutQuery req keyspace table infoSchemaPut nowMs with
    | Except.error e => Except.error e
    | Except.ok q => Except.ok [q]
  else if table == "data" then
    match schemaCacheEntry with
    | none => Except.error "Table not found!"
    | some e =>
      match buildPutQuery req keyspace table (dataPutSchema e) nowMs with
      | Except.error err => Except.error err
      | Except.ok q =>
          putCompanions keyspace req e nowMs [q]
            ((e.schema.secondaryIndexes.getD []).map Prod.fst)
  else Except.error "Table not found!"

/-- The mutations createTable performs on the request before persisting
it: _createTable for the data family (db.js 756-762) runs
generateIndexSchema on every secondary index, each call mutating the
request in place, and only afterwards (db.js 651-658) is
JSON.stringify(req) written to meta. Threaded recursion over the index
names. -/
def createTableMutationsGo : SchemaReq → List String → Except String SchemaReq
  | r, [] => Except.ok r
  | r, name :: rest =>
    match generateIndexSchema r name with
    | Except.error e => Except.error e
    | Except.ok gen => createTableMutationsGo gen.1 rest

/-- The mutation fold entry point. -/
def createTableMutations (req : SchemaReq) : Except String SchemaReq :=
  createTableMutationsGo req ((req.secondaryIndexes.getD []).map Prod.fst)

/-- Persist a schema document the way createTable does (the mutated
request; stringify-then-parse is the identity on these documents) and
reload it through _getSchema. -/
def persistThenReload (req : SchemaReq) : Except String (Option EnrichedSchema) :=
  match createTableMutations req with
  | Except.error e => Except.error e
  | Except.ok mutated => _getSchemaResult (MetaReadResult.row mutated)

/-- One scanner step for counting placeholders: a double quote toggles
the inside-identifier state, a question mark outside quoted identifiers
counts as a placeholder. -/
def phStep (st : Nat × Bool) (c : Char) : Nat × Bool :=
  if c = '"' then (st.1, !st.2)
  else if c = '?' ∧ st.2 = false then (st.1 + 1, st.2)
  else st

/-- Run the placeholder scanner over a string. -/
def phFold (st : Nat × Bool) (s : String) : Nat × Bool :=
  s.toList.foldl phStep st

/-- The number of ? placeholders in a CQL text: question marks outside
the double-quoted identifiers produced by cassID. -/
def placeholderCount (s : String) : Nat :=
  (phFold (0, false) s).1

/-- The query-relevant shape of a predicate value: which buildCondition
branch it takes and, for operator objects, the operator keys. Two values
of equal shape yield the same query text. -/
inductive CondShape where
  | jsStr : CondShape
  | scalar : CondShape
  | und : CondShape
  | opObj : List String → CondShape
deriving DecidableEq

/-- The shape of a predicate value. -/
def condShape : JVal → CondShape
  | JVal.str _ => CondShape.jsStr
  | JVal.tid _ => CondShape.jsStr
  | JVal.obj fs => CondShape.opObj (fs.map Prod.fst)
  | JVal.undef => CondShape.und
  | _ => CondShape.scalar

/-- The shape list of a predicate map: attribute names with the shapes
of their predicate values. -/
def predShapes (pred : List (String × JVal)) : List (String × CondShape) :=
  pred.map (fun kv => (kv.1, condShape kv.2))

/-- Example secondary-index descriptor: an index on title with nothing
else declared. -/
def exTitleIdx : IndexDef :=
  { hash := JVal.str "title", range := JVal.undef, order := JVal.undef,
    static := JVal.undef, proj := JVal.undef }

/-- Example primary index: partition key and one clustering column rev. -/
def exPrimaryIdx : IndexDef :=
  { hash := JVal.str "key", range := JVal.str "rev",
    order := JVal.undef, static := JVal.undef, proj := JVal.undef }

/-- Example schema document: primary key (key, rev), one secondary index
by_title on title. -/
def exSchema : SchemaReq :=
  { attributes := [("key", JVal.str "string"), ("rev", JVal.str "varint"),
      ("title", JVal.str "string")],
    index := exPrimaryIdx,
    secondaryIndexes := some [("by_title", exTitleIdx)] }

/-- The enrichment of exSchema (total by construction; the fallback of
getD is never taken, as the evaluation theorems below show). -/
def exEnriched : EnrichedSchema :=
  (enrichSchema exSchema).toOption.getD
    { schema := exSchema, indexSchema := [], _indexAttributes := [] }

/-- The by_title companion of exSchema. -/
def exCompanion : IndexSchema :=
  (lookupField exEnriched.indexSchema "by_title").getD
    { name := "", attributes := [], index := exTitleIdx, consistency := 0,
      _indexAttributes := [] }

/-- Example secondary-index descriptor named by_rev, as in the index
fan-out scenario of the spec. -/
def byRevIdx : IndexDef :=
  { hash := JVal.str "rev", range := JVal.undef, order := JVal.undef,
    static := JVal.undef, proj := JVal.undef }

/-- Example schema with the single secondary index by_rev. -/
def byRevSchema : SchemaReq :=
  { attributes := [("key", JVal.str "string"), ("rev", JVal.str "varint"),
      ("title", JVal.str "string")],
    index := exPrimaryIdx,
    secondaryIndexes := some [("by_rev", byRevIdx)] }

/-- The enrichment of byRevSchema. -/
def byRevEnriched : EnrichedSchema :=
  (enrichSchema byRevSchema).toOption.getD
    { schema := byRevSchema, indexSchema := [], _indexAttributes := [] }

/-- The by_rev companion of byRevSchema. -/
def byRevCompanion : IndexSchema :=
  (lookupField byRevEnriched.indexSchema "by_rev").getD
    { name := "", attributes := [], index := byRevIdx, consistency := 0,
      _indexAttributes := [] }

/-- Example schema without secondary indexes. -/
def plainSchema : SchemaReq :=
  { attributes := [("key", JVal.str "string"), ("rev", JVal.str "varint"),
      ("title", JVal.str "string")],
    index := exPrimaryIdx,
    secondaryIndexes := none }

/-- The enrichment of plainSchema. -/
def plainEnriched : EnrichedSchema :=
  (enrichSchema plainSchema).toOption.getD
    { schema := plainSchema, indexSchema := [], _indexAttributes := [] }

/-- Example put supplying the full primary key plus one value column. -/
def putUpd : PutReq :=
  { attributes := [("key", JVal.str "k1"), ("rev", JVal.str "r1"),
      ("title", JVal.str "T")], ifCond := JVal.undef }

/-- The same put with an if clause that normalizes to not exists. -/
def putNE : PutReq :=
  { attributes := [("key", JVal.str "k1"), ("rev", JVal.str "r1"),
      ("title", JVal.str "T")], ifCond := JVal.str "  Not   EXISTS " }

/-- A put on the by_title companion that supplies its own _tid value. -/
def putTid : PutReq :=
  { attributes := [("title", JVal.str "T"), ("rev", JVal.str "r1"),
      ("_tid", JVal.str "supplied-tid-value")], ifCond := JVal.undef }

/-- A driver result row still carrying the columns attribute the
node-cassandra-cql driver adds. -/
def c2rows : List JVal :=
  [JVal.obj [("value", JVal.str "x"), ("columns", JVal.arr [JVal.str "meta"])]]

/-- A descriptor with a user-declared static column and its own range,
to exhibit the in-place overwrite of both properties. -/
def c10Idx : IndexDef :=
  { hash := JVal.str "title", range := JVal.str "rev", order := JVal.undef,
    static := JVal.str "rev", proj := JVal.undef }

/-- A schema carrying c10Idx as secondary index by_title. -/
def c10Schema : SchemaReq :=
  { attributes := [("key", JVal.str "string"), ("rev", JVal.str "varint"),
      ("title", JVal.str "string")],
    index := exPrimaryIdx,
    secondaryIndexes := some [("by_title", c10Idx)] }

/-- The descriptor c10Idx after companion synthesis has overwritten its
static and replaced its range with the closed clustering list. -/
def c10MutatedIdx : IndexDef :=
  { hash := JVal.str "title",
    range := JVal.arr [JVal.str "rev", JVal.str "key", JVal.str "_tid"],
    order := JVal.undef, static := JVal.str "__consistentUpTo", proj := JVal.undef }

/-- c10Schema after generateIndexSchema mutated its descriptor. -/
def c10Mutated : SchemaReq :=
  { attributes := c10Schema.attributes, index := c10Schema.index,
    secondaryIndexes := some [("by_title", c10MutatedIdx)] }

/-- The companion schema synthesized for c10Schema by_title. -/
def c10Companion : IndexSchema :=
  { name := "by_title",
    attributes := [("__consistentUpTo", JVal.str "timeuuid"),
      ("__tombstone", JVal.str "boolean"), ("title", JVal.str "string"),
      ("rev", JVal.str "varint"), ("key", JVal.str "string"),
      ("_tid", JVal.str "timeuuid")],
    index := c10MutatedIdx, consistency := defaultConsistency,
    _indexAttributes := [("title", JVal.bool true), ("rev", JVal.bool true),
      ("_tid", JVal.str "timeuuid")] }

theorem lookupField_setField_self {α : Type} (l : List (String × α)) (k : String) (v : α) :
    lookupField (setField l k v) k = some v := by
  induction l with
  | nil => simp [setField, lookupField]
  | cons hd tl ih =>
    obtain ⟨a, b⟩ := hd
    by_cases h : a = k
    · simp [setField, h, lookupField]
    · simp [setField, h, lookupField, ih]

theorem lookupField_setField_ne {α : Type} (l : List (String × α)) (k k2 : String) (v : α)
    (hne : k2 ≠ k) : lookupField (setField l k v) k2 = lookupField l k2 := by
  have hkk2 : ¬(k = k2) := fun h => hne h.symm
  induction l with
  | nil =>
    simp only [setField, lookupField, if_neg hkk2]
  | cons hd tl ih =>
    obtain ⟨a, b⟩ := hd
    by_cases h : a = k
    · subst h
      simp only [setField, if_pos rfl, lookupField]
      rw [if_neg hkk2, if_neg hkk2]
    · simp only [setField, if_neg h, lookupField]
      by_cases h2 : a = k2
      · rw [if_pos h2, if_pos h2]
      · rw [if_neg h2, if_neg h2, ih]

theorem objGet_setField_self (m : List (String × JVal)) (k : String) (v : JVal) :
    objGet (setField m k v) k = v := by
  simp [objGet, lookupField_setField_self]

theorem objGet_setField_ne (m : List (String × JVal)) (k k2 : String) (v : JVal)
    (hne : k2 ≠ k) : objGet (setField m k v) k2 = objGet m k2 := by
  simp [objGet, lookupField_setField_ne m k k2 v hne]

theorem lookupField_mem {α : Type} (l : List (String × α)) (k : String) (v : α)
    (h : lookupField l k = some v) : (k, v) ∈ l := by
  induction l with
  | nil => simp [lookupField] at h
  | cons hd tl ih =>
    obtain ⟨a, b⟩ := hd
    by_cases ha : a = k
    · subst ha
      simp [lookupField] at h
      simp [h]
    · simp [lookupField, ha] at h
      exact List.mem_cons_of_mem _ (ih h)

theorem except_map_eq_ok {α β ε : Type} (f : α → β) (e : Except ε α) (y : β)
    (h : e.map f = Except.ok y) : ∃ x, e = Except.ok x ∧ f x = y := by
  cases e with
  | error err => simp [Except.map] at h
  | ok x =>
    refine ⟨x, rfl, ?_⟩
    simpa [Except.map] using h

theorem phFold_append (st : Nat × Bool) (a b : String) :
    phFold st (a ++ b) = phFold (phFold st a) b := by
  show (a ++ b).data.foldl phStep st = b.data.foldl phStep (a.data.foldl phStep st)
  rw [String.data_append, List.foldl_append]

theorem foldl_phStep_noquote (cs : List Char) (n : Nat)
    (h : ∀ c ∈ cs, c ≠ '"') : cs.foldl phStep (n, true) = (n, true) := by
  induction cs with
  | nil => rfl
  | cons c rest ih =>
    have hc : c ≠ '"' := h c (List.mem_cons_self c rest)
    have hrest : ∀ c ∈ rest, c ≠ '"' := fun c hm => h c (List.mem_cons_of_mem _ hm)
    simp only [List.foldl_cons, phStep, if_neg hc]
    have : ¬(c = '?' ∧ ((n : Nat), true).2 = false) := by simp
    rw [if_neg this]
    exact ih hrest

theorem escQuotes_foldl (cs : List Char) (n : Nat) :
    (escQuotes cs).foldl phStep (n, true) = (n, true) := by
  induction cs with
  | nil => rfl
  | cons c rest ih =>
    by_cases hc : c = '"'
    · subst hc
      rw [show escQuotes ('"' :: rest) = '"' :: '"' :: escQuotes rest from by
            simp [escQuotes]]
      rw [List.foldl_cons, List.foldl_cons]
      rw [show phStep (n, true) '"' = (n, false) from by simp [phStep]]
      rw [show phStep (n, false) '"' = (n, true) from by simp [phStep]]
      exact ih
    · rw [show escQuotes (c :: rest) = c :: escQuotes rest from by
            simp [escQuotes, hc]]
      rw [List.foldl_cons]
      rw [show phStep (n, true) c = (n, true) from by
            simp only [phStep, if_neg hc]
            rw [if_neg (by simp)]]
      exact ih

theorem isCassIdChar_ne_quote (c : Char) (h : isCassIdChar c = true) : c ≠ '"' := by
  intro hq
  subst hq
  exact absurd h (by decide)

theorem phFold_quote_open (n : Nat) : phFold (n, false) "\"" = (n, true) := rfl

theorem phFold_quote_close (n : Nat) : phFold (n, true) "\"" = (n, false) := rfl

theorem phFold_cassID (n : Nat) (k : String) :
    phFold (n, false) (cassID k) = (n, false) := by
  unfold cassID
  split
  case isTrue hcond =>
    rw [phFold_append, phFold_append, phFold_quote_open]
    have hall : k.toList.all isCassIdChar = true := by
      rcases Bool.and_eq_true_iff.mp hcond with ⟨_, h2⟩
      exact h2
    have hnq : ∀ c ∈ k.toList, c ≠ '"' := by
      intro c hm
      exact isCassIdChar_ne_quote c (List.all_eq_true.mp hall c hm)
    show phFold (k.toList.foldl phStep (n, true)) "\"" = (n, false)
    rw [show k.toList.foldl phStep (n, true) = (n, true) from foldl_phStep_noquote _ _ hnq]
    exact phFold_quote_close n
  case isFalse hcond =>
    rw [phFold_append, phFold_append, phFold_quote_open]
    show phFold ((String.mk (escQuotes k.toList)).toList.foldl phStep (n, true)) "\"" = (n, false)
    rw [show (String.mk (escQuotes k.toList)).toList = escQuotes k.toList from rfl]
    rw [escQuotes_foldl]
    exact phFold_quote_close n

theorem phFold_op_eq (n : Nat) : phFold (n, false) " = ?" = (n + 1, false) := rfl

theorem phFold_op_lt (n : Nat) : phFold (n, false) " < ?" = (n + 1, false) := rfl

theorem phFold_op_gt (n : Nat) : phFold (n, false) " > ?" = (n + 1, false) := rfl

theorem phFold_op_le (n : Nat) : phFold (n, false) " <= ?" = (n + 1, false) := rfl

theorem phFold_op_ge (n : Nat) : phFold (n, false) " >= ?" = (n + 1, false) := rfl

theorem phFold_op_ne (n : Nat) : phFold (n, false) " != ?" = (n + 1, false) := rfl

theorem phFold_and_sep (n : Nat) : phFold (n, false) " AND " = (n, false) := rfl

theorem condFragment_count (k : String) (v : JVal) (fr : String × List JVal)
    (h : condFragment k v = Except.ok fr) (n : Nat) :
    phFold (n, false) fr.1 = (n + fr.2.length, false) := by
  cases v with
  | undef => exact absurd h (by simp [condFragment])
  | str s =>
    simp only [condFragment, Except.ok.injEq] at h
    subst h
    rw [show ((cassID k ++ " = ?", [JVal.str s]) : String × List JVal).1 =
      cassID k ++ " = ?" from rfl]
    rw [phFold_append, phFold_cassID]
    exact phFold_op_eq n
  | tid t =>
    simp only [condFragment, Except.ok.injEq] at h
    subst h
    rw [show ((cassID k ++ " = ?", [JVal.tid t]) : String × List JVal).1 =
      cassID k ++ " = ?" from rfl]
    rw [phFold_append, phFold_cassID]
    exact phFold_op_eq n
  | num m =>
    simp only [condFragment, Except.ok.injEq] at h
    subst h
    simpa using phFold_cassID n k
  | bool b =>
    simp only [condFragment, Except.ok.injEq] at h
    subst h
    simpa using phFold_cassID n k
  | arr xs =>
    simp only [condFragment, Except.ok.injEq] at h
    subst h
    simpa using phFold_cassID n k
  | obj fs =>
    match fs with
    | [] => exact absurd h (by simp [condFragment])
    | (op, arg) :: [] =>
      simp only [condFragment] at h
      unfold opFragment at h
      split_ifs at h <;>
        simp only [Except.ok.injEq] at h <;>
        subst h
      case _ =>
        rw [show ((cassID k ++ " = ?", [arg]) : String × List JVal).1 =
          cassID k ++ " = ?" from rfl]
        rw [phFold_append, phFold_cassID]; exact phFold_op_eq n
      case _ =>
        rw [show ((cassID k ++ " < ?", [arg]) : String × List JVal).1 =
          cassID k ++ " < ?" from rfl]
        rw [phFold_append, phFold_cassID]; exact phFold_op_lt n
      case _ =>
        rw [show ((cassID k ++ " > ?", [arg]) : String × List JVal).1 =
          cassID k ++ " > ?" from rfl]
        rw [phFold_append, phFold_cassID]; exact phFold_op_gt n
      case _ =>
        rw [show ((cassID k ++ " <= ?", [arg]) : String × List JVal).1 =
          cassID k ++ " <= ?" from rfl]
        rw [phFold_append, phFold_cassID]; exact phFold_op_le n
      case _ =>
        rw [show ((cassID k ++ " >= ?", [arg]) : String × List JVal).1 =
          cassID k ++ " >= ?" from rfl]
        rw [phFold_append, phFold_cassID]; exact phFold_op_ge n
      case _ =>
        rw [show ((cassID k ++ " != ?", [arg]) : String × List JVal).1 =
          cassID k ++ " != ?" from rfl]
        rw [phFold_append, phFold_cassID]; exact phFold_op_ne n
      case _ =>
        rw [show ((cassID k ++ " >= ?" ++ " AND " ++ cassID k ++ " <= ?",
            [jsIndex arg 0, jsIndex arg 1]) : String × List JVal).1 =
          cassID k ++ " >= ?" ++ " AND " ++ cassID k ++ " <= ?" from rfl]
        rw [phFold_append, phFold_append, phFold_append, phFold_append,
          phFold_cassID, phFold_op_ge, phFold_and_sep, phFold_cassID, phFold_op_le]
        rfl
    | _ :: _ :: _ => exact absurd h (by simp [condFragment])

theorem buildConditionAux_nil_params (pred : List (String × JVal)) (ps : List JVal)
    (h : buildConditionAux pred = Except.ok ([], ps)) : ps = [] := by
  cases pred with
  | nil =>
    simp only [buildConditionAux, Except.ok.injEq, Prod.mk.injEq] at h
    exact h.2.symm
  | cons hd tl =>
    obtain ⟨k, v⟩ := hd
    simp only [buildConditionAux] at h
    cases hfr : condFragment k v with
    | error e => rw [hfr] at h; exact absurd h (by simp)
    | ok fr =>
      rw [hfr] at h
      cases htl : buildConditionAux tl with
      | error e => rw [htl] at h; exact absurd h (by simp)
      | ok tail =>
        rw [htl] at h
        simp only [Except.ok.injEq, Prod.mk.injEq] at h
        exact absurd h.1 (by simp)

theorem buildConditionAux_count (pred : List (String × JVal))
    (acc : List String × List JVal) (h : buildConditionAux pred = Except.ok acc)
    (n : Nat) : phFold (n, false) (joinAnd acc.1) = (n + acc.2.length, false) := by
  induction pred generalizing acc n with
  | nil =>
    simp only [buildConditionAux, Except.ok.injEq] at h
    subst h
    simp [joinAnd, phFold]
  | cons hd tl ih =>
    obtain ⟨k, v⟩ := hd
    simp only [buildConditionAux] at h
    cases hfr : condFragment k v with
    | error e => rw [hfr] at h; exact absurd h (by simp)
    | ok fr =>
      rw [hfr] at h
      cases htl : buildConditionAux tl with
      | error e => rw [htl] at h; exact absurd h (by simp)
      | ok tail =>
        rw [htl] at h
        simp only [Except.ok.injEq] at h
        subst h
        cases htail1 : tail.1 with
        | nil =>
          have hnil : tail.2 = [] := by
            apply buildConditionAux_nil_params tl
            rw [htl, ← htail1]
          show phFold (n, false) (joinAnd [fr.1]) = (n + (fr.2 ++ tail.2).length, false)
          rw [show joinAnd [fr.1] = fr.1 from rfl]
          rw [condFragment_count k v fr hfr n]
          simp [hnil]
        | cons t ts =>
          show phFold (n, false) (joinAnd (fr.1 :: t :: ts)) =
            (n + (fr.2 ++ tail.2).length, false)
          rw [show joinAnd (fr.1 :: t :: ts) = fr.1 ++ " AND " ++ joinAnd (t :: ts) from rfl]
          rw [phFold_append, phFold_append]
          rw [condFragment_count k v fr hfr n, phFold_and_sep]
          rw [← htail1]
          rw [ih tail htl (n + fr.2.length)]
          simp [List.length_append]
          omega

theorem buildCondition_count (pred : List (String × JVal))
    (res : String × List JVal) (h : buildCondition pred = Except.ok res) :
    placeholderCount res.1 = res.2.length := by
  unfold buildCondition at h
  cases haux : buildConditionAux pred with
  | error e => rw [haux] at h; exact absurd h (by simp)
  | ok acc =>
    rw [haux] at h
    simp only [Except.ok.injEq] at h
    subst h
    show (phFold (0, false) (joinAnd acc.1)).1 = acc.2.length
    rw [buildConditionAux_count pred acc haux 0]
    simp

theorem condFragment_shape (k : String) (v v2 : JVal)
    (h : condShape v = condShape v2) :
    (condFragment k v).map Prod.fst = (condFragment k v2).map Prod.fst := by
  cases v <;> cases v2 <;>
    first
      | rfl
      | exact CondShape.noConfusion h
      | skip
  rename_i fs gs
  simp only [condShape, CondShape.opObj.injEq] at h
  cases fs with
  | nil =>
    have hg : gs = [] := by
      cases gs with
      | nil => rfl
      | cons p ps => simp at h
    subst hg
    rfl
  | cons hd tl =>
    obtain ⟨op, a⟩ := hd
    cases tl with
    | nil =>
      cases gs with
      | nil => simp at h
      | cons p ps =>
        obtain ⟨op2, b⟩ := p
        simp only [List.map_cons, List.map_nil, List.cons.injEq] at h
        obtain ⟨hop, hps⟩ := h
        have hps2 : ps = [] := by
          cases ps with
          | nil => rfl
          | cons q qs => simp at hps
        subst hop
        subst hps2
        show (opFragment k op a).map Prod.fst = (opFragment k op b).map Prod.fst
        unfold opFragment
        split_ifs <;> rfl
    | cons hd2 tl2 =>
      cases gs with
      | nil => simp at h
      | cons p ps =>
        cases ps with
        | nil => simp at h
        | cons q qs => rfl

theorem buildConditionAux_shape (pred pred2 : List (String × JVal))
    (hsh : predShapes pred = predShapes pred2)
    (acc : List String × List JVal) (h : buildConditionAux pred = Except.ok acc) :
    ∃ acc2, buildConditionAux pred2 = Except.ok acc2 ∧ acc2.1 = acc.1 := by
  induction pred generalizing pred2 acc with
  | nil =>
    have hp : pred2 = [] := by
      cases pred2 with
      | nil => rfl
      | cons p ps => simp [predShapes] at hsh
    subst hp
    simp only [buildConditionAux, Except.ok.injEq] at h
    exact ⟨([], []), rfl, by rw [← h]⟩
  | cons hd tl ih =>
    obtain ⟨k, v⟩ := hd
    cases pred2 with
    | nil => simp [predShapes] at hsh
    | cons hd2 tl2 =>
      obtain ⟨k2, v2⟩ := hd2
      simp only [predShapes, List.map_cons, List.cons.injEq, Prod.mk.injEq] at hsh
      obtain ⟨⟨hk, hv⟩, hshtl⟩ := hsh
      subst hk
      simp only [buildConditionAux] at h ⊢
      cases hfr : condFragment k v with
      | error e => rw [hfr] at h; exact absurd h (by simp)
      | ok fr =>
        rw [hfr] at h
        have hmap : (condFragment k v2).map Prod.fst = Except.ok fr.1 := by
          rw [← condFragment_shape k v v2 hv, hfr]
          rfl
        obtain ⟨fr2, hfr2eq, hfr2fst⟩ := except_map_eq_ok Prod.fst _ _ hmap
        rw [hfr2eq]
        cases htl : buildConditionAux tl with
        | error e => rw [htl] at h; exact absurd h (by simp)
        | ok tail =>
          rw [htl] at h
          simp only [Except.ok.injEq] at h
          obtain ⟨tail2, htail2, htail2fst⟩ := ih tl2 hshtl tail htl
          rw [htail2]
          refine ⟨(fr2.1 :: tail2.1, fr2.2 ++ tail2.2), rfl, ?_⟩
          rw [← h]
          show fr2.1 :: tail2.1 = fr.1 :: tail.1
          rw [hfr2fst, htail2fst]

/-- C7: for every predicate map buildCondition compiles successfully,
the number of ? placeholders in the query (question marks outside the
quoted identifiers) equals the number of bound parameters, and the query
text is independent of the predicate values: any predicate map with the
same attribute names and value shapes compiles to the same query, so no
predicate value is ever inlined into the query text. -/
theorem C7_placeholders_and_value_independence (pred : List (String × JVal))
    (res : String × List JVal) (h : buildCondition pred = Except.ok res) :
    placeholderCount res.1 = res.2.length ∧
    ∀ pred2, predShapes pred = predShapes pred2 →
      ∃ res2, buildCondition pred2 = Except.ok res2 ∧ res2.1 = res.1 := by
  constructor
  · exact buildCondition_count pred res h
  · intro pred2 hsh
    unfold buildCondition at h ⊢
    cases haux : buildConditionAux pred with
    | error e => rw [haux] at h; exact absurd h (by simp)
    | ok acc =>
      rw [haux] at h
      simp only [Except.ok.injEq] at h
      obtain ⟨acc2, hacc2, hfst⟩ := buildConditionAux_shape pred pred2 hsh acc haux
      rw [hacc2]
      refine ⟨(joinAnd acc2.1, acc2.2), rfl, ?_⟩
      rw [← h]
      show joinAnd acc2.1 = joinAnd acc.1
      rw [hfst]

/-- Witness for C7 at the concrete predicate a = "x": one placeholder,
one parameter, and changing the value to "y" leaves the query text
unchanged. -/
theorem C7_witness :
    placeholderCount "\"a\" = ?" = 1 ∧
    ∃ res2, buildCondition [("a", JVal.str "y")] = Except.ok res2 ∧
      res2.1 = "\"a\" = ?" := by
  have h := C7_placeholders_and_value_independence [("a", JVal.str "x")]
    ("\"a\" = ?", [JVal.str "x"]) rfl
  exact ⟨h.1, h.2 [("a", JVal.str "y")] rfl⟩

/-- C1 (code divergence evaluation): on exSchema the primary
_indexAttributes is the set key, rev, while the by_title companion
synthesized by generateIndexSchema records only title, rev, _tid: the
primary hash key is appended to the companion clustering columns
(index.range) but omitted from the companion _indexAttributes, so the
claimed superset fails; the timeuuid half does hold, via the synthesized
__consistentUpTo column. -/
theorem C1_companion_drops_primary_hash :
    (enrichSchema exSchema).map (fun e => e._indexAttributes) =
      Except.ok [("key", JVal.bool true), ("rev", JVal.bool true)] ∧
    (enrichSchema exSchema).map (fun e =>
        (lookupField e.indexSchema "by_title").map (fun i => i._indexAttributes)) =
      Except.ok (some [("title", JVal.bool true), ("rev", JVal.bool true),
        ("_tid", JVal.str "timeuuid")]) ∧
    (enrichSchema exSchema).map (fun e =>
        (lookupField e.indexSchema "by_title").map
          (fun i => objGet i._indexAttributes "key")) =
      Except.ok (some JVal.undef) ∧
    (enrichSchema exSchema).map (fun e =>
        (lookupField e.indexSchema "by_title").map (fun i => i.index.range)) =
      Except.ok (some (JVal.arr [JVal.str "key", JVal.str "rev", JVal.str "_tid"])) ∧
    (enrichSchema exSchema).map (fun e =>
        (lookupField e.indexSchema "by_title").map
          (fun i => objGet i.attributes "__consistentUpTo")) =
      Except.ok (some (JVal.str "timeuuid")) :=
  ⟨rfl, rfl, rfl, rfl, rfl⟩

/-- C2 (code divergence evaluation): on a non-empty result the response
shaping of _get throws instead of resolving: the for-in loop of db.js
508-510 binds row to the index string of the rows array, and under the
strict mode declared at the top of db.js the property write
row.columns = undefined on that primitive throws a TypeError, so the
read rejects; it never resolves count and items, and in particular never
resolves rows with the driver-added columns attribute removed (the input
row here demonstrably carries one). Only an empty result resolves. -/
theorem C2_nonempty_get_rejects :
    _getShape c2rows =
      Except.error "TypeError: cannot create property columns on a primitive" ∧
    (∀ v, _getShape c2rows ≠ Except.ok v) ∧
    _getShape [] =
      Except.ok (JVal.obj [("count", JVal.num 0), ("items", JVal.arr [])]) ∧
    jsGetProp (jsIndex (JVal.arr c2rows) 0) "columns" = JVal.arr [JVal.str "meta"] := by
  refine ⟨rfl, ?_, rfl, rfl⟩
  intro v h
  rw [show _getShape c2rows =
    Except.error "TypeError: cannot create property columns on a primitive" from rfl] at h
  exact Except.noConfusion h

/-- C3 (code divergence evaluation): the read _getSchema issues is _get
with the empty request, producing select-star over meta with no WHERE
clause and no bound parameter, while the request object it builds (and
never passes) would have produced the claimed key = ? read with the
string schema bound; the no-rows case does resolve to null. -/
theorem C3_schema_read_unfiltered :
    _getSchemaRead "ks" none = Except.ok ("select * from \"ks\".\"meta\"", []) ∧
    _getQuery "ks" _getSchemaIntendedReq (some "meta") none =
      Except.ok ("select * from \"ks\".\"meta\" where \"key\" = ?",
        [JVal.str "schema"]) ∧
    _getSchemaResult MetaReadResult.empty = Except.ok none :=
  ⟨rfl, rfl, rfl⟩

/-- C6 counterexample: a numeric scalar predicate value is neither a JS
String nor an Object, so buildCondition emits the bare quoted column
name with no placeholder and no parameter, not the claimed equality. -/
theorem C6_counterexample :
    buildCondition [("ts", JVal.num 5)] = Except.ok ("\"ts\"", []) ∧
    ("\"ts\"" : String) ≠ "\"ts\" = ?" := by
  exact ⟨rfl, by decide⟩

/-- C6 amended: only string scalars compile to equality with the value
bound; numeric and boolean scalars fall through both constructor checks
and contribute the bare quoted column name with no parameter; the
concrete between example compiles as the claim states. -/
theorem C6_scalar_equality (k : String) :
    (∀ s, condFragment k (JVal.str s) =
      Except.ok (cassID k ++ " = ?", [JVal.str s])) ∧
    (∀ n, condFragment k (JVal.num n) = Except.ok (cassID k, [])) ∧
    (∀ b, condFragment k (JVal.bool b) = Except.ok (cassID k, [])) ∧
    buildCondition [("key", JVal.str "foo"),
        ("ts", JVal.obj [("between", JVal.arr [JVal.num 1, JVal.num 2])])] =
      Except.ok ("\"key\" = ? AND \"ts\" >= ? AND \"ts\" <= ?",
        [JVal.str "foo", JVal.num 1, JVal.num 2]) :=
  ⟨fun _ => rfl, fun _ => rfl, fun _ => rfl, rfl⟩

/-- C9 (code divergence evaluation): the round trip is not the
enrichment of the original document. createTable persists the request
only after generateIndexSchema closed the by_title descriptor range in
place (the stored descriptor carries range [key, rev, _tid] where the
original had none), and the reload then rejects outright: _getSchema
reads the schema row from meta, and the strict-mode TypeError in the
columns loop of _get fires on the non-empty result before JSON.parse or
any re-synthesis runs, while the in-memory enrichment of the original
document succeeds. -/
theorem C9_reload_rejects_not_enrichment :
    persistThenReload exSchema =
      Except.error "TypeError: cannot create property columns on a primitive" ∧
    (∀ e, persistThenReload exSchema ≠ Except.ok (some e)) ∧
    (createTableMutations exSchema).map (fun r =>
        (lookupField (r.secondaryIndexes.getD []) "by_title").map (fun d => d.range)) =
      Except.ok (some (JVal.arr [JVal.str "key", JVal.str "rev", JVal.str "_tid"])) ∧
    exTitleIdx.range = JVal.undef ∧
    (enrichSchema exSchema).map (fun e =>
        (lookupField e.indexSchema "by_title").map (fun i => i.index.range)) =
      Except.ok (some (JVal.arr [JVal.str "key", JVal.str "rev", JVal.str "_tid"])) := by
  refine ⟨rfl, ?_, rfl, rfl, rfl⟩
  intro e h
  rw [show persistThenReload exSchema =
    Except.error "TypeError: cannot create property columns on a primitive" from rfl] at h
  exact Except.noConfusion h

/-- C10: generateIndexSchema hands back a request whose processed
descriptor has been replaced: attributes and the primary index are
untouched, but the descriptor stored under the index name is exactly the
companion index object, its static overwritten with __consistentUpTo and
its range replaced by the closed clustering array; on the concrete
c10Schema the user-declared static rev is discarded and the range gains
the appended primary hash and _tid, so the parent schema is changed. -/
theorem C10_descriptor_mutated_in_place :
    (∀ req name req2 idxs, generateIndexSchema req name = Except.ok (req2, idxs) →
      req2.attributes = req.attributes ∧
      req2.index = req.index ∧
      lookupField (req2.secondaryIndexes.getD []) name = some idxs.index ∧
      idxs.index.static = JVal.str "__consistentUpTo" ∧
      ∃ closedRange, idxs.index.range = JVal.arr closedRange) ∧
    (generateIndexSchema c10Schema "by_title").map (fun p =>
        (lookupField (p.1.secondaryIndexes.getD []) "by_title").map
          (fun d => (d.static, d.range))) =
      Except.ok (some (JVal.str "__consistentUpTo",
        JVal.arr [JVal.str "rev", JVal.str "key", JVal.str "_tid"])) ∧
    c10Idx.static = JVal.str "rev" ∧
    c10Idx.range = JVal.str "rev" := by
  refine ⟨?_, rfl, rfl, rfl⟩
  intro req name req2 idxs h
  unfold generateIndexSchema at h
  split at h
  · exact absurd h (by simp)
  · rename_i index hlk
    split at h
    · split at h
      · exact absurd h (by simp)
      · rename_i rangeIndex hval
        simp only [Except.ok.injEq] at h
        have h1 : (generateIndexSchemaCore req name index rangeIndex).1 = req2 :=
          congrArg Prod.fst h
        have h2 : (generateIndexSchemaCore req name index rangeIndex).2 = idxs :=
          congrArg Prod.snd h
        subst h1
        subst h2
        refine ⟨rfl, rfl, ?_, rfl, ⟨_, rfl⟩⟩
        exact lookupField_setField_self _ _ _
    · exact absurd h (by simp)

theorem isNotExists_truthy (v : JVal) (h : isNotExists v = true) :
    truthy v = true := by
  cases v <;> simp [isNotExists] at h <;> simp [truthy, h]

theorem putMainStatement_spec (keyspace tbl : String) (ia : List (String × JVal))
    (keys : List String) (params0 : List JVal) (placeholders : List String)
    (reqIf : JVal) (condRes : String × List JVal) (main : String × List JVal)
    (h : putMainStatement keyspace tbl ia keys params0 placeholders reqIf condRes =
      Except.ok main) :
    (keys = [] ∨ isNotExists reqIf = true →
      (∃ rest, main.1 = "insert into " ++ cassID keyspace ++ "." ++ cassID tbl ++ rest) ∧
      main.2 = condRes.2 ++ params0) ∧
    (¬(keys = []) ∧ isNotExists reqIf = false →
      (∃ rest, main.1 = "update " ++ cassID keyspace ++ "." ++ cassID tbl ++ rest) ∧
      main.2 = params0 ++ condRes.2) := by
  unfold putMainStatement at h
  by_cases hc : (keys.isEmpty || isNotExists reqIf) = true
  · rw [if_pos hc] at h
    simp only [Except.ok.injEq] at h
    subst h
    constructor
    · intro _
      constructor
      · refine ⟨" (" ++ String.intercalate "," ((ia.map Prod.fst ++ keys).map cassID)
          ++ ") values (" ++ String.intercalate "," placeholders ++ ")", ?_⟩
        simp [String.append_assoc]
      · rfl
    · intro hupd
      rcases Bool.or_eq_true_iff.mp hc with hke | hne
      · exact absurd (List.isEmpty_iff.mp hke) hupd.1
      · rw [hupd.2] at hne
        exact absurd hne (by simp)
  · rw [if_neg hc] at h
    have hc2 : ¬(keys = []) ∧ isNotExists reqIf = false := by simpa using hc
    rw [if_pos (by simpa using hc2.1)] at h
    simp only [Except.ok.injEq] at h
    subst h
    constructor
    · intro hins
      rcases hins with hkeys | hni
      · exact absurd hkeys hc2.1
      · rw [hc2.2] at hni
        exact absurd hni (by simp)
    · intro _
      constructor
      · refine ⟨" set " ++ (String.intercalate " = ?," (keys.map cassID) ++ " = ? ")
          ++ " where " ++ condRes.1, ?_⟩
        simp [String.append_assoc]
      · rfl

theorem putIfSuffix_spec (reqIf : JVal) (main res : String × List JVal)
    (h : putIfSuffix reqIf main = Except.ok res) :
    ∃ extra, res.2 = main.2 ++ extra ∧
      (∃ tailStr, res.1 = main.1 ++ tailStr) ∧
      (isNotExists reqIf = true → extra = [] ∧ res.1 = main.1 ++ " if not exists ") := by
  unfold putIfSuffix at h
  by_cases ht : truthy reqIf = true
  · rw [if_pos ht] at h
    by_cases hne : isNotExists reqIf = true
    · rw [if_pos hne] at h
      simp only [Except.ok.injEq] at h
      subst h
      exact ⟨[], by simp, ⟨" if not exists ", rfl⟩, fun _ => ⟨rfl, rfl⟩⟩
    · rw [if_neg hne] at h
      cases hbc : buildCondition (jsFields reqIf) with
      | error e => rw [hbc] at h; exact absurd h (by simp)
      | ok condResult =>
        rw [hbc] at h
        simp only [Except.ok.injEq] at h
        subst h
        refine ⟨condResult.2, rfl,
          ⟨" if " ++ condResult.1, by simp [String.append_assoc]⟩, ?_⟩
        intro hni
        exact absurd hni hne
  · rw [if_neg ht] at h
    simp only [Except.ok.injEq] at h
    subst h
    refine ⟨[], by simp, ⟨"", (String.append_empty main.1).symm⟩, ?_⟩
    intro hni
    exact absurd (isNotExists_truthy reqIf hni) ht

theorem buildPutQuery_branches (req : PutReq) (ks table : String) (schema : PutSchema)
    (now : Nat) (res : String × List JVal)
    (h : buildPutQuery req ks table schema now = Except.ok res) :
    ∃ kvmap cond extra,
      putIndexKVMap req (putIndexAttrsFor table schema) now = Except.ok kvmap ∧
      buildCondition kvmap = Except.ok cond ∧
      (isNotExists (normalizeIf req.ifCond) = true →
        extra = [] ∧ ∃ pre, res.1 = pre ++ " if not exists ") ∧
      ((putValueSplit req schema (putIndexAttrsFor table schema)).1 = [] ∨
          isNotExists (normalizeIf req.ifCond) = true →
        (∃ rest, res.1 = "insert into " ++ cassID ks ++ "." ++
          cassID (putTableFor table) ++ rest) ∧
        res.2 = cond.2 ++
          (putValueSplit req schema (putIndexAttrsFor table schema)).2.1 ++ extra) ∧
      (¬((putValueSplit req schema (putIndexAttrsFor table schema)).1 = []) ∧
          isNotExists (normalizeIf req.ifCond) = false →
        (∃ rest, res.1 = "update " ++ cassID ks ++ "." ++
          cassID (putTableFor table) ++ rest) ∧
        res.2 = (putValueSplit req schema (putIndexAttrsFor table schema)).2.1 ++
          cond.2 ++ extra) := by
  unfold buildPutQuery at h
  split at h
  · exact absurd h (by simp)
  · rename_i kvmap hkv
    split at h
    · exact absurd h (by simp)
    · rename_i cond hbc
      split at h
      · exact absurd h (by simp)
      · rename_i main hmain
        obtain ⟨extra, hres2, ⟨tailStr, hres1⟩, hNE⟩ := putIfSuffix_spec _ _ _ h
        obtain ⟨hins, hupd⟩ := putMainStatement_spec _ _ _ _ _ _ _ _ _ hmain
        refine ⟨kvmap, cond, extra, hkv, hbc, ?_, ?_, ?_⟩
        · intro hni
          obtain ⟨hextra, hres1n⟩ := hNE hni
          exact ⟨hextra, ⟨main.1, hres1n⟩⟩
        · intro hcase
          obtain ⟨⟨rest1, hm1⟩, hm2⟩ := hins hcase
          constructor
          · exact ⟨rest1 ++ tailStr, by rw [hres1, hm1]; simp [String.append_assoc]⟩
          · rw [hres2, hm2]
        · intro hcase
          obtain ⟨⟨rest1, hm1⟩, hm2⟩ := hupd hcase
          constructor
          · exact ⟨rest1 ++ tailStr, by rw [hres1, hm1]; simp [String.append_assoc]⟩
          · rw [hres2, hm2]

/-- C5: for every put compiled by buildPutQuery, the statement is an
INSERT exactly when no non-key attributes were supplied or the if clause
normalizes to not exists, binding the key parameters (the compiled
indexKVMap condition parameters, in _indexAttributes order) first and
then the non-key values; in every other case with non-key attributes it
is an UPDATE binding non-key values first and the key parameters after;
and a normalized not exists clause appends the if-not-exists suffix to
the insert, whose parameters are then exactly keys first, values after. -/
theorem C5_insert_update_branching (req : PutReq) (ks table : String)
    (schema : PutSchema) (now : Nat) (res : String × List JVal)
    (h : buildPutQuery req ks table schema now = Except.ok res) :
    ∃ kvmap cond,
      putIndexKVMap req (putIndexAttrsFor table schema) now = Except.ok kvmap ∧
      buildCondition kvmap = Except.ok cond ∧
      (((putValueSplit req schema (putIndexAttrsFor table schema)).1 = [] ∨
          isNotExists (normalizeIf req.ifCond) = true) →
        (∃ rest, res.1 = "insert into " ++ cassID ks ++ "." ++
          cassID (putTableFor table) ++ rest) ∧
        ∃ extra, res.2 = cond.2 ++
          (putValueSplit req schema (putIndexAttrsFor table schema)).2.1 ++ extra) ∧
      ((¬((putValueSplit req schema (putIndexAttrsFor table schema)).1 = []) ∧
          isNotExists (normalizeIf req.ifCond) = false) →
        (∃ rest, res.1 = "update " ++ cassID ks ++ "." ++
          cassID (putTableFor table) ++ rest) ∧
        ∃ extra, res.2 = (putValueSplit req schema (putIndexAttrsFor table schema)).2.1 ++
          cond.2 ++ extra) ∧
      (isNotExists (normalizeIf req.ifCond) = true →
        (∃ pre, res.1 = pre ++ " if not exists ") ∧
        res.2 = cond.2 ++ (putValueSplit req schema (putIndexAttrsFor table schema)).2.1) := by
  obtain ⟨kvmap, cond, extra, hkv, hbc, hNE, hins, hupd⟩ :=
    buildPutQuery_branches req ks table schema now res h
  refine ⟨kvmap, cond, hkv, hbc, ?_, ?_, ?_⟩
  · intro hcase
    obtain ⟨hq, hp⟩ := hins hcase
    exact ⟨hq, extra, hp⟩
  · intro hcase
    obtain ⟨hq, hp⟩ := hupd hcase
    exact ⟨hq, extra, hp⟩
  · intro hni
    obtain ⟨hextra, hpre⟩ := hNE hni
    obtain ⟨hq, hp⟩ := hins (Or.inr hni)
    refine ⟨hpre, ?_⟩
    rw [hp, hextra]
    exact List.append_nil _

/-- Witness for C5 at the concrete not-exists put putNE against the
data family of the enriched example schema. -/
theorem C5_witness :
    ∃ kvmap cond,
      putIndexKVMap putNE (putIndexAttrsFor "data" (dataPutSchema exEnriched)) 7 =
        Except.ok kvmap ∧
      buildCondition kvmap = Except.ok cond ∧
      (((putValueSplit putNE (dataPutSchema exEnriched)
            (putIndexAttrsFor "data" (dataPutSchema exEnriched))).1 = [] ∨
          isNotExists (normalizeIf putNE.ifCond) = true) →
        (∃ rest, ("insert into \"ks\".\"data\" (\"key\",\"rev\",\"title\") values (?,?,?) if not exists ",
            [JVal.str "k1", JVal.str "r1", JVal.str "T"]).1 =
          "insert into " ++ cassID "ks" ++ "." ++
          cassID (putTableFor "data") ++ rest) ∧
        ∃ extra, ("insert into \"ks\".\"data\" (\"key\",\"rev\",\"title\") values (?,?,?) if not exists ",
            [JVal.str "k1", JVal.str "r1", JVal.str "T"]).2 = cond.2 ++
          (putValueSplit putNE (dataPutSchema exEnriched)
            (putIndexAttrsFor "data" (dataPutSchema exEnriched))).2.1 ++ extra) ∧
      ((¬((putValueSplit putNE (dataPutSchema exEnriched)
            (putIndexAttrsFor "data" (dataPutSchema exEnriched))).1 = []) ∧
          isNotExists (normalizeIf putNE.ifCond) = false) →
        (∃ rest, ("insert into \"ks\".\"data\" (\"key\",\"rev\",\"title\") values (?,?,?) if not exists ",
            [JVal.str "k1", JVal.str "r1", JVal.str "T"]).1 =
          "update " ++ cassID "ks" ++ "." ++
          cassID (putTableFor "data") ++ rest) ∧
        ∃ extra, ("insert into \"ks\".\"data\" (\"key\",\"rev\",\"title\") values (?,?,?) if not exists ",
            [JVal.str "k1", JVal.str "r1", JVal.str "T"]).2 =
          (putValueSplit putNE (dataPutSchema exEnriched)
            (putIndexAttrsFor "data" (dataPutSchema exEnriched))).2.1 ++
          cond.2 ++ extra) ∧
      (isNotExists (normalizeIf putNE.ifCond) = true →
        (∃ pre, ("insert into \"ks\".\"data\" (\"key\",\"rev\",\"title\") values (?,?,?) if not exists ",
            [JVal.str "k1", JVal.str "r1", JVal.str "T"]).1 = pre ++ " if not exists ") ∧
        ("insert into \"ks\".\"data\" (\"key\",\"rev\",\"title\") values (?,?,?) if not exists ",
            [JVal.str "k1", JVal.str "r1", JVal.str "T"]).2 = cond.2 ++
          (putValueSplit putNE (dataPutSchema exEnriched)
            (putIndexAttrsFor "data" (dataPutSchema exEnriched))).2.1) :=
  C5_insert_update_branching putNE "ks" "data" (dataPutSchema exEnriched) 7
    ("insert into \"ks\".\"data\" (\"key\",\"rev\",\"title\") values (?,?,?) if not exists ",
      [JVal.str "k1", JVal.str "r1", JVal.str "T"]) rfl

theorem putIndexKVMapGo_tid (req : PutReq) (now : Nat) (ia : List (String × JVal))
    (m res : List (String × JVal))
    (h : putIndexKVMapGo req now m ia = Except.ok res)
    (hpre : "_tid" ∈ ia.map Prod.fst ∨ objGet m "_tid" = tidFromDate now) :
    objGet res "_tid" = tidFromDate now := by
  induction ia generalizing m with
  | nil =>
    simp only [putIndexKVMapGo, Except.ok.injEq] at h
    subst h
    rcases hpre with habs | hm
    · simp at habs
    · exact hm
  | cons kv rest ih =>
    simp only [putIndexKVMapGo] at h
    by_cases hk : (kv.1 == "_tid") = true
    · rw [if_pos hk] at h
      apply ih _ h
      right
      rw [show kv.1 = "_tid" from by simpa using hk]
      exact objGet_setField_self m "_tid" (tidFromDate now)
    · rw [if_neg hk] at h
      by_cases hfalsy : (!truthy (objGet req.attributes kv.1)) = true
      · rw [if_pos hfalsy] at h
        exact absurd h (by simp)
      · rw [if_neg hfalsy] at h
        apply ih _ h
        rcases hpre with hmem | hm
        · left
          simp only [List.map_cons] at hmem
          rcases List.mem_cons.mp hmem with hhd | htail
          · exact absurd hhd.symm (by simpa using hk)
          · exact htail
        · right
          rw [objGet_setField_ne m kv.1 "_tid" _ (fun hc => by
            rw [hc] at hk
            exact hk (by simp))]
          exact hm

theorem objGet_tid_mem (m : List (String × JVal)) (t : Nat)
    (h : objGet m "_tid" = JVal.tid t) : ("_tid", JVal.tid t) ∈ m := by
  cases hlk : lookupField m "_tid" with
  | none =>
    unfold objGet at h
    rw [hlk] at h
    exact absurd h (by simp)
  | some v =>
    have hv : v = JVal.tid t := by
      unfold objGet at h
      rw [hlk] at h
      simpa using h
    subst hv
    exact lookupField_mem m "_tid" _ hlk

theorem buildConditionAux_tid_mem (pred : List (String × JVal))
    (acc : List String × List JVal) (h : buildConditionAux pred = Except.ok acc)
    (k : String) (t : Nat) (hmem : (k, JVal.tid t) ∈ pred) :
    JVal.tid t ∈ acc.2 := by
  induction pred generalizing acc with
  | nil => simp at hmem
  | cons hd tl ih =>
    obtain ⟨k1, v1⟩ := hd
    simp only [buildConditionAux] at h
    cases hfr : condFragment k1 v1 with
    | error e => rw [hfr] at h; exact absurd h (by simp)
    | ok fr =>
      rw [hfr] at h
      cases htl : buildConditionAux tl with
      | error e => rw [htl] at h; exact absurd h (by simp)
      | ok tail =>
        rw [htl] at h
        simp only [Except.ok.injEq] at h
        subst h
        rcases List.mem_cons.mp hmem with hhd | htail
        · have hk1 : k1 = k ∧ v1 = JVal.tid t := by
            have := hhd.symm
            simp only [Prod.mk.injEq] at this
            exact this
          rw [hk1.2] at hfr
          simp only [condFragment, Except.ok.injEq] at hfr
          rw [← hfr]
          simp
        · exact List.mem_append.mpr (Or.inr (ih tail htl htail))

theorem buildCondition_tid_mem (pred : List (String × JVal))
    (res : String × List JVal) (h : buildCondition pred = Except.ok res)
    (k : String) (t : Nat) (hmem : (k, JVal.tid t) ∈ pred) :
    JVal.tid t ∈ res.2 := by
  unfold buildCondition at h
  cases haux : buildConditionAux pred with
  | error e => rw [haux] at h; exact absurd h (by simp)
  | ok acc =>
    rw [haux] at h
    simp only [Except.ok.injEq] at h
    rw [← h]
    exact buildConditionAux_tid_mem pred acc haux k t hmem

/-- C4 counterexample: a put on the by_title companion that supplies its
own _tid value; buildPutQuery still binds the tid synthesized from the
wall clock, and the supplied value appears nowhere in the parameters. -/
theorem C4_counterexample :
    buildPutQuery putTid "ks" "by_title" (companionPutSchema exCompanion)
        1700000000000 =
      Except.ok ("insert into \"ks\".\"i_by_title\" (\"title\",\"rev\",\"_tid\") values (?,?,?)",
        [JVal.str "T", JVal.str "r1", JVal.tid 1700000000000]) ∧
    ¬ (JVal.str "supplied-tid-value" ∈
        [JVal.str "T", JVal.str "r1", JVal.tid 1700000000000]) := by
  refine ⟨rfl, ?_⟩
  intro hmem
  simp only [List.mem_cons, List.not_mem_nil, or_false] at hmem
  rcases hmem with hc | hc | hc
  · injection hc with hs
    exact absurd hs (by decide)
  · injection hc with hs
    exact absurd hs (by decide)
  · exact JVal.noConfusion hc

/-- C4 amended: whenever _tid is among the index attributes buildPutQuery
uses for the target table, the bound indexKVMap carries the tid
synthesized by tidFromDate from the current wall clock, regardless of
any supplied _tid attribute, and that synthesized tid is among the bound
statement parameters. -/
theorem C4_tid_always_synthesized (req : PutReq) (ks table : String)
    (schema : PutSchema) (now : Nat) (res : String × List JVal)
    (hmem : "_tid" ∈ (putIndexAttrsFor table schema).map Prod.fst)
    (h : buildPutQuery req ks table schema now = Except.ok res) :
    (∃ kvmap, putIndexKVMap req (putIndexAttrsFor table schema) now = Except.ok kvmap ∧
      objGet kvmap "_tid" = tidFromDate now) ∧
    JVal.tid now ∈ res.2 := by
  obtain ⟨kvmap, cond, extra, hkv, hbc, hNE, hins, hupd⟩ :=
    buildPutQuery_branches req ks table schema now res h
  have htid : objGet kvmap "_tid" = tidFromDate now :=
    putIndexKVMapGo_tid req now (putIndexAttrsFor table schema) [] kvmap hkv
      (Or.inl hmem)
  refine ⟨⟨kvmap, hkv, htid⟩, ?_⟩
  have hmem2 : ("_tid", JVal.tid now) ∈ kvmap := objGet_tid_mem kvmap now htid
  have hcond : JVal.tid now ∈ cond.2 :=
    buildCondition_tid_mem kvmap cond hbc "_tid" now hmem2
  by_cases hcase : (putValueSplit req schema (putIndexAttrsFor table schema)).1 = [] ∨
      isNotExists (normalizeIf req.ifCond) = true
  · obtain ⟨_, hp⟩ := hins hcase
    rw [hp]
    exact List.mem_append.mpr (Or.inl (List.mem_append.mpr (Or.inl hcond)))
  · rcases not_or.mp hcase with ⟨hA, hB⟩
    cases hbv : isNotExists (normalizeIf req.ifCond) with
    | true => exact absurd hbv hB
    | false =>
      obtain ⟨_, hp⟩ := hupd ⟨hA, hbv⟩
      rw [hp]
      exact List.mem_append.mpr (Or.inl (List.mem_append.mpr (Or.inr hcond)))

/-- Witness for C4 at the concrete companion put putTid: the _tid index
attribute is present, and the synthesized tid for msecs 1700000000000 is
among the bound parameters. -/
theorem C4_witness :
    (∃ kvmap, putIndexKVMap putTid
        (putIndexAttrsFor "by_title" (companionPutSchema exCompanion)) 1700000000000 =
        Except.ok kvmap ∧ objGet kvmap "_tid" = tidFromDate 1700000000000) ∧
    JVal.tid 1700000000000 ∈
      ("insert into \"ks\".\"i_by_title\" (\"title\",\"rev\",\"_tid\") values (?,?,?)",
        [JVal.str "T", JVal.str "r1", JVal.tid 1700000000000]).2 :=
  C4_tid_always_synthesized putTid "ks" "by_title" (companionPutSchema exCompanion)
    1700000000000
    ("insert into \"ks\".\"i_by_title\" (\"title\",\"rev\",\"_tid\") values (?,?,?)",
      [JVal.str "T", JVal.str "r1", JVal.tid 1700000000000])
    (by decide)
    rfl

theorem buildPutQuery_target (req : PutReq) (ks table : String) (schema : PutSchema)
    (now : Nat) (res : String × List JVal)
    (h : buildPutQuery req ks table schema now = Except.ok res) :
    ∃ rest, res.1 = "insert into " ++ cassID ks ++ "." ++
        cassID (putTableFor table) ++ rest ∨
      res.1 = "update " ++ cassID ks ++ "." ++ cassID (putTableFor table) ++ rest := by
  obtain ⟨kvmap, cond, extra, hkv, hbc, hNE, hins, hupd⟩ :=
    buildPutQuery_branches req ks table schema now res h
  by_cases hcase : (putValueSplit req schema (putIndexAttrsFor table schema)).1 = [] ∨
      isNotExists (normalizeIf req.ifCond) = true
  · obtain ⟨⟨rest, hq⟩, _⟩ := hins hcase
    exact ⟨rest, Or.inl hq⟩
  · rcases not_or.mp hcase with ⟨hA, hB⟩
    cases hbv : isNotExists (normalizeIf req.ifCond) with
    | true => exact absurd hbv hB
    | false =>
      obtain ⟨⟨rest, hq⟩, _⟩ := hupd ⟨hA, hbv⟩
      exact ⟨rest, Or.inr hq⟩

/-- C8: against a cached schema with exactly the secondary index by_rev,
_put composes exactly two statements, the primary (built from the data
schema and its _restbase._indexAttributes, targeting the data family)
and the companion (built from the cached by_rev companion schema and its
own _indexAttributes, targeting i_by_rev), and executeCql dispatches the
pair as a prepared batch; with no secondary indexes _put composes the
single primary statement and executeCql dispatches it directly as a
prepared execute, not a batch. -/
theorem C8_index_fanout :
    (∀ (ks : String) (req : PutReq) (e : EnrichedSchema) (d : IndexDef)
        (idxs : IndexSchema) (now : Nat) (q1 q2 : String × List JVal) (c : Nat),
      e.schema.secondaryIndexes = some [("by_rev", d)] →
      lookupField e.indexSchema "by_rev" = some idxs →
      buildPutQuery req ks "data" (dataPutSchema e) now = Except.ok q1 →
      buildPutQuery req ks "by_rev" (companionPutSchema idxs) now = Except.ok q2 →
      _put ks req none (some e) now = Except.ok [q1, q2] ∧
      executeCql [q1, q2] c = Dispatch.batch [q1, q2] c true ∧
      (∃ rest, q1.1 = "insert into " ++ cassID ks ++ "." ++ cassID "data" ++ rest ∨
        q1.1 = "update " ++ cassID ks ++ "." ++ cassID "data" ++ rest) ∧
      (∃ rest, q2.1 = "insert into " ++ cassID ks ++ "." ++ cassID "i_by_rev" ++ rest ∨
        q2.1 = "update " ++ cassID ks ++ "." ++ cassID "i_by_rev" ++ rest)) ∧
    (∀ (ks : String) (req : PutReq) (e : EnrichedSchema) (now : Nat)
        (q : String × List JVal) (c : Nat),
      e.schema.secondaryIndexes = none →
      buildPutQuery req ks "data" (dataPutSchema e) now = Except.ok q →
      _put ks req none (some e) now = Except.ok [q] ∧
      executeCql [q] c = Dispatch.execute q.1 q.2 c true) := by
  constructor
  · intro ks req e d idxs now q1 q2 c hsec hlk h1 h2
    refine ⟨?_, rfl, buildPutQuery_target req ks "data" (dataPutSchema e) now q1 h1,
      buildPutQuery_target req ks "by_rev" (companionPutSchema idxs) now q2 h2⟩
    have hstep1 : _put ks req none (some e) now =
        (match buildPutQuery req ks "data" (dataPutSchema e) now with
         | Except.error err => Except.error err
         | Except.ok q => putCompanions ks req e now [q]
             ((e.schema.secondaryIndexes.getD []).map Prod.fst)) := rfl
    rw [hstep1, h1]
    show putCompanions ks req e now [q1]
        ((e.schema.secondaryIndexes.getD []).map Prod.fst) = Except.ok [q1, q2]
    rw [hsec]
    show (match lookupField e.indexSchema "by_rev" with
          | none => Except.error "Table not found!"
          | some idxSchema =>
            match buildPutQuery req ks "by_rev" (companionPutSchema idxSchema) now with
            | Except.error err => Except.error err
            | Except.ok q2x => putCompanions ks req e now ([q1] ++ [q2x]) []) =
        Except.ok [q1, q2]
    rw [hlk]
    show (match buildPutQuery req ks "by_rev" (companionPutSchema idxs) now with
          | Except.error err => Except.error err
          | Except.ok q2x => putCompanions ks req e now ([q1] ++ [q2x]) []) =
        Except.ok [q1, q2]
    rw [h2]
    rfl
  · intro ks req e now q c hsec h1
    refine ⟨?_, rfl⟩
    have hstep1 : _put ks req none (some e) now =
        (match buildPutQuery req ks "data" (dataPutSchema e) now with
         | Except.error err => Except.error err
         | Except.ok qx => putCompanions ks req e now [qx]
             ((e.schema.secondaryIndexes.getD []).map Prod.fst)) := rfl
    rw [hstep1, h1]
    show putCompanions ks req e now [q]
        ((e.schema.secondaryIndexes.getD []).map Prod.fst) = Except.ok [q]
    rw [hsec]
    rfl

/-- Witness for C8: the by_rev example schema fans putUpd out into the
two concrete statements dispatched as a batch, and the plain schema
sends its single statement through the direct prepared execute. -/
theorem C8_witness :
    (_put "ks" putUpd none (some byRevEnriched) 7 =
      Except.ok [("update \"ks\".\"data\" set \"title\" = ?  where \"key\" = ? AND \"rev\" = ?",
          [JVal.str "T", JVal.str "k1", JVal.str "r1"]),
        ("update \"ks\".\"i_by_rev\" set \"key\" = ?  where \"rev\" = ? AND \"_tid\" = ?",
          [JVal.str "k1", JVal.str "r1", JVal.tid 7])] ∧
      executeCql [("update \"ks\".\"data\" set \"title\" = ?  where \"key\" = ? AND \"rev\" = ?",
          [JVal.str "T", JVal.str "k1", JVal.str "r1"]),
        ("update \"ks\".\"i_by_rev\" set \"key\" = ?  where \"rev\" = ? AND \"_tid\" = ?",
          [JVal.str "k1", JVal.str "r1", JVal.tid 7])] 1 =
        Dispatch.batch [("update \"ks\".\"data\" set \"title\" = ?  where \"key\" = ? AND \"rev\" = ?",
          [JVal.str "T", JVal.str "k1", JVal.str "r1"]),
        ("update \"ks\".\"i_by_rev\" set \"key\" = ?  where \"rev\" = ? AND \"_tid\" = ?",
          [JVal.str "k1", JVal.str "r1", JVal.tid 7])] 1 true ∧
      (∃ rest, ("update \"ks\".\"data\" set \"title\" = ?  where \"key\" = ? AND \"rev\" = ?",
          ([JVal.str "T", JVal.str "k1", JVal.str "r1"] : List JVal)).1 =
          "insert into " ++ cassID "ks" ++ "." ++ cassID "data" ++ rest ∨
        ("update \"ks\".\"data\" set \"title\" = ?  where \"key\" = ? AND \"rev\" = ?",
          ([JVal.str "T", JVal.str "k1", JVal.str "r1"] : List JVal)).1 =
          "update " ++ cassID "ks" ++ "." ++ cassID "data" ++ rest) ∧
      (∃ rest, ("update \"ks\".\"i_by_rev\" set \"key\" = ?  where \"rev\" = ? AND \"_tid\" = ?",
          ([JVal.str "k1", JVal.str "r1", JVal.tid 7] : List JVal)).1 =
          "insert into " ++ cassID "ks" ++ "." ++ cassID "i_by_rev" ++ rest ∨
        ("update \"ks\".\"i_by_rev\" set \"key\" = ?  where \"rev\" = ? AND \"_tid\" = ?",
          ([JVal.str "k1", JVal.str "r1", JVal.tid 7] : List JVal)).1 =
          "update " ++ cassID "ks" ++ "." ++ cassID "i_by_rev" ++ rest)) ∧
    (_put "ks" putUpd none (some plainEnriched) 7 =
      Except.ok [("update \"ks\".\"data\" set \"title\" = ?  where \"key\" = ? AND \"rev\" = ?",
          [JVal.str "T", JVal.str "k1", JVal.str "r1"])] ∧
      executeCql [("update \"ks\".\"data\" set \"title\" = ?  where \"key\" = ? AND \"rev\" = ?",
          [JVal.str "T", JVal.str "k1", JVal.str "r1"])] 1 =
        Dispatch.execute
          ("update \"ks\".\"data\" set \"title\" = ?  where \"key\" = ? AND \"rev\" = ?",
            ([JVal.str "T", JVal.str "k1", JVal.str "r1"] : List JVal)).1
          ("update \"ks\".\"data\" set \"title\" = ?  where \"key\" = ? AND \"rev\" = ?",
            ([JVal.str "T", JVal.str "k1", JVal.str "r1"] : List JVal)).2 1 true) :=
  ⟨C8_index_fanout.1 "ks" putUpd byRevEnriched _ _ 7
      ("update \"ks\".\"data\" set \"title\" = ?  where \"key\" = ? AND \"rev\" = ?",
        [JVal.str "T", JVal.str "k1", JVal.str "r1"])
      ("update \"ks\".\"i_by_rev\" set \"key\" = ?  where \"rev\" = ? AND \"_tid\" = ?",
        [JVal.str "k1", JVal.str "r1", JVal.tid 7]) 1 rfl rfl rfl rfl,
    C8_index_fanout.2 "ks" putUpd plainEnriched 7
      ("update \"ks\".\"data\" set \"title\" = ?  where \"key\" = ? AND \"rev\" = ?",
        [JVal.str "T", JVal.str "k1", JVal.str "r1"]) 1 rfl rfl⟩

/-- Witness for C10 at c10Schema: the returned request carries the
synthesized companion descriptor in place of the user one. -/
theorem C10_witness :
    c10Mutated.attributes = c10Schema.attributes ∧
    c10Mutated.index = c10Schema.index ∧
    lookupField (c10Mutated.secondaryIndexes.getD []) "by_title" =
      some c10Companion.index ∧
    c10Companion.index.static = JVal.str "__consistentUpTo" ∧
    ∃ closedRange, c10Companion.index.range = JVal.arr closedRange :=
  C10_descriptor_mutated_in_place.1 c10Schema "by_title" c10Mutated c10Companion rfl

end Storoid
